import Mathlib

/-!
# Verification of the seq66 realtime MIDI transport layer

A shallow embedding, in Lean 4, of the data model and operations of the
seq66 MIDI transport subsystem:

* `midi_message` and the `midi_queue` ring buffer (`rtmidi_types.hpp`);
* the `rtmidi_out` constructor's API-probing logic (`rtmidi.cpp`);
* ALSA port enumeration, `midi_alsa_info::get_all_port_info`
  (`midi_alsa_info.cpp`);
* the `midi_api` connection state (`midi_api.hpp` / `midi_api.cpp`);
* `mastermidibus::api_init` virtual-port setup (`mastermidibus.cpp`);
* the JACK frame/pulse conversion factor (`midi_jack_data.hpp`).

Machine integers are modelled as `Nat`/`Int`; the `double` fields used by
the timing code are modelled with exact rationals (`Rat`).  Where a member
function's body is not present in the sources (only its declaration or its
callers are), the definition is marked `Modelled from the spec:` and follows
the specification's words.
-/

namespace seq66

/-! ## midi_message (rtmidi_types.hpp)

A capsule for a MIDI message: a byte vector plus an optional timestamp.
`m_bytes` holds the event status and data bytes; the timestamp is a
`double` in the source, modelled as a rational here.
-/

/-- A MIDI byte (`unsigned char` in the source); values are below 256. -/
abbrev midibyte := Nat

/-- Embeds `midi_message`: holds the data bytes and the (optional) timestamp. -/
structure midi_message where
  m_bytes : List midibyte
  m_timestamp : Rat
deriving DecidableEq

instance : Inhabited midi_message := ⟨⟨[], 0⟩⟩

/-- Embeds `midi_message::count()`: `int(m_bytes.size())`. -/
def midi_message.count (m : midi_message) : Int := m.m_bytes.length

/-- Embeds `midi_message::empty()`. -/
def midi_message.is_empty (m : midi_message) : Bool := m.m_bytes.isEmpty

/-- Embeds `midi_message::operator[](int i)`: returns `m_bytes[i]` when
`i >= 0 && i < int(m_bytes.size())`, and `0` otherwise. -/
def midi_message.getByte (m : midi_message) (i : Int) : midibyte :=
  if 0 ≤ i ∧ i < m.count then m.m_bytes.getD i.toNat 0 else 0

/-- Embeds `midi_message::push(midibyte)`: appends a byte. -/
def midi_message.push (m : midi_message) (b : midibyte) : midi_message :=
  { m with m_bytes := m.m_bytes ++ [b] }

/-! ## midi_queue (rtmidi_types.hpp)

A fixed-capacity ring of `midi_message` values.  The data members
(`m_front`, `m_back`, `m_size`, `m_ring_size`, `m_ring`) and the inline
accessors (`empty`, `count`, `full`, `front`) are taken from the source
header.  The ring array is modelled as a total function from indices to
messages.  The specification additionally requires a counter of events
dropped on overflow ("this must be observable via a counter, not silently
ignored"); it is the field `m_dropped`.
-/

/-- The `midi_queue` ring-buffer state.  `m_ring` is the backing array
(of size `m_ring_size`), `m_front`/`m_back` the read/write indices,
`m_size` the element count.  `m_dropped` is the overflow-drop counter
required by the specification. -/
structure midi_queue where
  m_front : Nat
  m_back : Nat
  m_size : Nat
  m_ring_size : Nat
  m_ring : Nat → midi_message
  m_dropped : Nat

/-- Embeds `midi_queue::empty()`: `m_size == 0`. -/
def midi_queue.is_empty (q : midi_queue) : Bool := q.m_size == 0

/-- Embeds `midi_queue::count()`: `int(m_size)`. -/
def midi_queue.count (q : midi_queue) : Int := q.m_size

/-- Embeds `midi_queue::full()`: `m_size == m_ring_size`. -/
def midi_queue.full (q : midi_queue) : Bool := q.m_size == q.m_ring_size

/-- Embeds `midi_queue::front()`: `m_ring[m_front]`. -/
def midi_queue.front (q : midi_queue) : midi_message := q.m_ring q.m_front

/-- Modelled from the spec: `midi_queue::allocate(queuesize)` (body not in
the sources) sets up an empty ring of the given fixed capacity. -/
def midi_queue.allocate (queuesize : Nat) : midi_queue :=
  ⟨0, 0, 0, queuesize, fun _ => default, 0⟩

/-- Modelled from the spec: `midi_queue::add` (body not in the sources) is
the producer push.  Contract: `push(event) -> bool`, false if full, in
which case the event is dropped and the drop is counted; otherwise the
message is stored at `m_back`, which advances circularly. -/
def midi_queue.add (q : midi_queue) (mmsg : midi_message) :
    Bool × midi_queue :=
  if q.full then
    (false, { q with m_dropped := q.m_dropped + 1 })
  else
    (true,
      { q with
        m_ring := Function.update q.m_ring q.m_back mmsg
        m_back := (q.m_back + 1) % q.m_ring_size
        m_size := q.m_size + 1 })

/-- Modelled from the spec: `midi_queue::pop_front` (body not in the
sources) is the consumer pop.  Contract: `pop() -> Option<event>`; an
empty queue yields no event, otherwise the front message is returned and
`m_front` advances circularly. -/
def midi_queue.pop_front (q : midi_queue) : Option midi_message × midi_queue :=
  if q.is_empty then
    (none, q)
  else
    (some (q.m_ring q.m_front),
      { q with
        m_front := (q.m_front + 1) % q.m_ring_size
        m_size := q.m_size - 1 })

/-- The abstract contents of the ring, front first. -/
def midi_queue.contents (q : midi_queue) : List midi_message :=
  (List.range q.m_size).map (fun i => q.m_ring ((q.m_front + i) % q.m_ring_size))

/-- Structural well-formedness of the ring state. -/
def midi_queue.wf (q : midi_queue) : Prop :=
  0 < q.m_ring_size ∧ q.m_size ≤ q.m_ring_size ∧ q.m_front < q.m_ring_size ∧
    q.m_back = (q.m_front + q.m_size) % q.m_ring_size

theorem midi_queue.contents_length (q : midi_queue) :
    q.contents.length = q.m_size := by
  simp [midi_queue.contents]

theorem midi_queue.wf_allocate (n : Nat) (h : 0 < n) :
    (midi_queue.allocate n).wf := by
  simp [midi_queue.allocate, midi_queue.wf, h]

theorem midi_queue.contents_allocate (n : Nat) :
    (midi_queue.allocate n).contents = [] := by
  simp [midi_queue.allocate, midi_queue.contents]

theorem midi_queue.add_wf (q : midi_queue) (m : midi_message) (h : q.wf) :
    ((q.add m).2).wf := by
  obtain ⟨hrs, hsz, hfr, hback⟩ := h
  by_cases hf : q.full
  · simpa [midi_queue.add, hf, midi_queue.wf, hfr, hback] using ⟨hrs, hsz⟩
  · have hslt : q.m_size < q.m_ring_size :=
      lt_of_le_of_ne hsz (by simpa [midi_queue.full] using hf)
    refine ⟨?_, ?_, ?_, ?_⟩ <;>
      simp [midi_queue.add, hf, hrs, hfr, Nat.succ_le_of_lt hslt, hback,
        Nat.mod_add_mod, Nat.add_assoc]

theorem midi_queue.pop_wf (q : midi_queue) (h : q.wf) :
    (q.pop_front.2).wf := by
  obtain ⟨hrs, hsz, hfr, hback⟩ := h
  by_cases he : q.is_empty
  · have hstate : q.pop_front.2 = q := by simp [midi_queue.pop_front, he]
    rw [hstate]
    exact ⟨hrs, hsz, hfr, hback⟩
  · have hpos : 0 < q.m_size := by
      have : q.m_size ≠ 0 := by simpa [midi_queue.is_empty] using he
      omega
    refine ⟨?_, ?_, ?_, ?_⟩
    · simp only [midi_queue.pop_front, he, Bool.false_eq_true, if_false]
      exact hrs
    · simp only [midi_queue.pop_front, he, Bool.false_eq_true, if_false]
      omega
    · simp only [midi_queue.pop_front, he, Bool.false_eq_true, if_false]
      exact Nat.mod_lt _ hrs
    · simp only [midi_queue.pop_front, he, Bool.false_eq_true, if_false, hback,
        Nat.mod_add_mod]
      congr 1
      omega

/-- Pushing onto a non-full ring appends the message to its contents. -/
theorem midi_queue.contents_add (q : midi_queue) (m : midi_message)
    (h : q.wf) (hf : q.full = false) :
    ((q.add m).2).contents = q.contents ++ [m] := by
  obtain ⟨hrs, hsz, hfr, hback⟩ := h
  have hslt : q.m_size < q.m_ring_size :=
    lt_of_le_of_ne hsz (by simpa [midi_queue.full] using hf)
  have hmain : ∀ i, i < q.m_size →
      Function.update q.m_ring q.m_back m ((q.m_front + i) % q.m_ring_size) =
        q.m_ring ((q.m_front + i) % q.m_ring_size) := by
    intro i hi
    apply Function.update_noteq
    intro hEq
    rw [hback] at hEq
    have h2 : i ≡ q.m_size [MOD q.m_ring_size] :=
      Nat.ModEq.add_left_cancel' q.m_front hEq
    rw [Nat.ModEq, Nat.mod_eq_of_lt (lt_trans hi hslt),
      Nat.mod_eq_of_lt hslt] at h2
    exact absurd h2 (Nat.ne_of_lt hi)
  have hlast :
      Function.update q.m_ring q.m_back m
        ((q.m_front + q.m_size) % q.m_ring_size) = m := by
    rw [← hback]
    exact Function.update_same _ _ _
  simp only [midi_queue.add, hf, Bool.false_eq_true, if_false,
    midi_queue.contents, List.range_succ, List.map_append, List.map_cons,
    List.map_nil]
  congr 1
  · exact List.map_congr_left fun i hi => hmain i (List.mem_range.mp hi)
  · simp [hlast]

/-- Pushing onto a full ring leaves its contents unchanged (the event is
dropped) and bumps the drop counter. -/
theorem midi_queue.contents_add_full (q : midi_queue) (m : midi_message)
    (hf : q.full = true) :
    (q.add m).1 = false ∧ ((q.add m).2).contents = q.contents ∧
      ((q.add m).2).m_dropped = q.m_dropped + 1 := by
  simp [midi_queue.add, hf, midi_queue.contents]

/-- Popping a non-empty ring yields the front of its contents and leaves
the tail. -/
theorem midi_queue.pop_spec (q : midi_queue) (h : q.wf)
    (hne : q.is_empty = false) :
    q.pop_front.1 = some (q.m_ring q.m_front) ∧
      q.contents = q.m_ring q.m_front :: (q.pop_front.2).contents := by
  obtain ⟨hrs, hsz, hfr, hback⟩ := h
  obtain ⟨s, hs⟩ : ∃ s, q.m_size = s + 1 := by
    have : q.m_size ≠ 0 := by simpa [midi_queue.is_empty] using hne
    exact Nat.exists_eq_succ_of_ne_zero this
  constructor
  · simp [midi_queue.pop_front, hne]
  · simp only [midi_queue.pop_front, hne, Bool.false_eq_true, if_false,
      midi_queue.contents, hs, Nat.succ_sub_one, List.range_succ_eq_map,
      List.map_cons, List.map_map]
    congr 1
    · rw [Nat.add_zero, Nat.mod_eq_of_lt hfr]
    · refine List.map_congr_left fun i _ => ?_
      simp only [Function.comp_apply, Nat.mod_add_mod]
      congr 2
      omega

/-! ## Sequences of push/pop operations (specification section 8)

A single-producer/single-consumer history is a sequence of `push`/`pop`
operations applied in order; `run_ops` folds it over a queue state,
recording the accepted (successfully pushed) events, the popped events,
and the final state.
-/

/-- One ring-buffer operation: a producer push or a consumer pop. -/
inductive midi_op where
  | push : midi_message → midi_op
  | pop : midi_op

/-- Result of running a sequence of operations. -/
structure run_result where
  accepted : List midi_message
  popped : List midi_message
  state : midi_queue

/-- Run a sequence of operations on a queue, collecting the accepted
pushes and the popped events in order. -/
def run_ops (q : midi_queue) : List midi_op → run_result
  | [] => ⟨[], [], q⟩
  | midi_op.push m :: rest =>
    let r := q.add m
    let rr := run_ops r.2 rest
    if r.1 then ⟨m :: rr.accepted, rr.popped, rr.state⟩
    else ⟨rr.accepted, rr.popped, rr.state⟩
  | midi_op.pop :: rest =>
    let r := q.pop_front
    let rr := run_ops r.2 rest
    match r.1 with
    | some m => ⟨rr.accepted, m :: rr.popped, rr.state⟩
    | none => ⟨rr.accepted, rr.popped, rr.state⟩

/-- The number of pushes attempted in a sequence of operations. -/
def push_count : List midi_op → Nat
  | [] => 0
  | midi_op.push _ :: rest => push_count rest + 1
  | midi_op.pop :: rest => push_count rest

/-- The master invariant of a run: the state stays well-formed, the popped
events followed by the events still queued are exactly the initial
contents followed by the accepted events, and the drop counter accounts
for every rejected push. -/
theorem run_ops_spec (ops : List midi_op) (q : midi_queue) (h : q.wf) :
    (run_ops q ops).state.wf ∧
      (run_ops q ops).popped ++ (run_ops q ops).state.contents =
        q.contents ++ (run_ops q ops).accepted ∧
      (run_ops q ops).state.m_dropped + (run_ops q ops).accepted.length =
        q.m_dropped + push_count ops := by
  induction ops generalizing q with
  | nil => simpa [run_ops, push_count] using h
  | cons op rest ih =>
    cases op with
    | push m =>
      by_cases hf : q.full
      · have hstep := midi_queue.contents_add_full q m hf
        have hwf2 : ((q.add m).2).wf := midi_queue.add_wf q m h
        obtain ⟨ihw, ihc, ihd⟩ := ih ((q.add m).2) hwf2
        simp only [run_ops, hstep.1, Bool.false_eq_true, if_false]
        refine ⟨ihw, ?_, ?_⟩
        · rw [ihc, hstep.2.1]
        · rw [ihd, hstep.2.2, push_count]
          omega
      · have hf2 : q.full = false := by simpa using hf
        have haccept : (q.add m).1 = true := by
          simp [midi_queue.add, hf2]
        have hwf2 : ((q.add m).2).wf := midi_queue.add_wf q m h
        obtain ⟨ihw, ihc, ihd⟩ := ih ((q.add m).2) hwf2
        simp only [run_ops, haccept, if_true]
        refine ⟨ihw, ?_, ?_⟩
        · rw [ihc, midi_queue.contents_add q m h hf2, List.append_assoc,
            List.singleton_append]
        · have hd2 : ((q.add m).2).m_dropped = q.m_dropped := by
            simp [midi_queue.add, hf2]
          rw [List.length_cons, push_count]
          rw [hd2] at ihd
          omega
    | pop =>
      by_cases he : q.is_empty
      · have hstate : q.pop_front.2 = q := by
          simp [midi_queue.pop_front, he]
        have hres : q.pop_front.1 = none := by
          simp [midi_queue.pop_front, he]
        obtain ⟨ihw, ihc, ihd⟩ := ih q h
        simp only [run_ops, hres, hstate]
        exact ⟨ihw, ihc, by simpa [push_count] using ihd⟩
      · have he2 : q.is_empty = false := by simpa using he
        obtain ⟨hres, hcon⟩ := midi_queue.pop_spec q h he2
        have hwf2 : (q.pop_front.2).wf := midi_queue.pop_wf q h
        obtain ⟨ihw, ihc, ihd⟩ := ih (q.pop_front.2) hwf2
        have hd2 : (q.pop_front.2).m_dropped = q.m_dropped := by
          simp [midi_queue.pop_front, he2]
        simp only [run_ops, hres]
        refine ⟨ihw, ?_, ?_⟩
        · rw [List.cons_append, ihc, hcon, List.cons_append]
        · rw [hd2] at ihd
          simpa [push_count] using ihd

/-- C1: for every sequence of push/pop operations on the `midi_queue` ring
buffer (single producer and single consumer, so the operations form one
interleaved history), the popped events followed by the events still queued
are exactly the successfully pushed events in order: FIFO order is
preserved, no event is duplicated or lost, and events rejected on overflow
are excluded.  The number of dropped events equals pushes minus pops minus
the events remaining in the queue (under sustained overflow the remaining
events fill the entire capacity), stated additively:
dropped + pops + remaining = pushes. -/
theorem midi_queue_fifo (n : Nat) (hn : 0 < n) (ops : List midi_op) :
    (run_ops (midi_queue.allocate n) ops).popped ++
        (run_ops (midi_queue.allocate n) ops).state.contents =
      (run_ops (midi_queue.allocate n) ops).accepted ∧
      (run_ops (midi_queue.allocate n) ops).state.m_dropped +
          (run_ops (midi_queue.allocate n) ops).popped.length +
          (run_ops (midi_queue.allocate n) ops).state.m_size =
        push_count ops := by
  obtain ⟨hwf, hc, hd⟩ :=
    run_ops_spec ops (midi_queue.allocate n) (midi_queue.wf_allocate n hn)
  rw [midi_queue.contents_allocate, List.nil_append] at hc
  refine ⟨hc, ?_⟩
  have hlen := congrArg List.length hc
  simp only [List.length_append, midi_queue.contents_length] at hlen
  have hd0 : (midi_queue.allocate n).m_dropped = 0 := rfl
  rw [hd0] at hd
  omega

/-- Witness for C1: a capacity-1 queue, two pushes and three pops.  The
second push overflows and is dropped; the single accepted event comes back
out exactly once and in order. -/
theorem midi_queue_fifo_witness :
    (run_ops (midi_queue.allocate 1)
        [midi_op.push ⟨[144, 60, 100], 0⟩, midi_op.push ⟨[128, 60, 0], 0⟩,
          midi_op.pop, midi_op.pop, midi_op.pop]).popped ++
        (run_ops (midi_queue.allocate 1)
          [midi_op.push ⟨[144, 60, 100], 0⟩, midi_op.push ⟨[128, 60, 0], 0⟩,
            midi_op.pop, midi_op.pop, midi_op.pop]).state.contents =
      (run_ops (midi_queue.allocate 1)
        [midi_op.push ⟨[144, 60, 100], 0⟩, midi_op.push ⟨[128, 60, 0], 0⟩,
          midi_op.pop, midi_op.pop, midi_op.pop]).accepted ∧
      (run_ops (midi_queue.allocate 1)
          [midi_op.push ⟨[144, 60, 100], 0⟩, midi_op.push ⟨[128, 60, 0], 0⟩,
            midi_op.pop, midi_op.pop, midi_op.pop]).state.m_dropped +
          (run_ops (midi_queue.allocate 1)
            [midi_op.push ⟨[144, 60, 100], 0⟩, midi_op.push ⟨[128, 60, 0], 0⟩,
              midi_op.pop, midi_op.pop, midi_op.pop]).popped.length +
          (run_ops (midi_queue.allocate 1)
            [midi_op.push ⟨[144, 60, 100], 0⟩, midi_op.push ⟨[128, 60, 0], 0⟩,
              midi_op.pop, midi_op.pop, midi_op.pop]).state.m_size =
        push_count
          [midi_op.push ⟨[144, 60, 100], 0⟩, midi_op.push ⟨[128, 60, 0], 0⟩,
            midi_op.pop, midi_op.pop, midi_op.pop] :=
  midi_queue_fifo 1 (by decide)
    [midi_op.push ⟨[144, 60, 100], 0⟩, midi_op.push ⟨[128, 60, 0], 0⟩,
      midi_op.pop, midi_op.pop, midi_op.pop]

/-- A concrete full queue of capacity 1, used by the C2 witness. -/
def c2_full_queue : midi_queue :=
  ((midi_queue.allocate 1).add ⟨[144, 60, 100], 0⟩).2

/-- C2: pushing an event onto a full `midi_queue` (`full()` true, i.e.
element count equal to the ring capacity) returns false and drops the
event — the ring contents are unchanged and the observable drop counter is
incremented, not silently ignored — and popping from an empty queue yields
`none` rather than an arbitrary event. -/
theorem midi_queue_full_push_empty_pop (q qe : midi_queue) (m : midi_message)
    (hf : q.full = true) (he : qe.is_empty = true) :
    (q.add m).1 = false ∧ ((q.add m).2).contents = q.contents ∧
      ((q.add m).2).m_dropped = q.m_dropped + 1 ∧
      qe.pop_front.1 = none := by
  refine ⟨?_, ?_, ?_, ?_⟩ <;>
    simp [midi_queue.add, midi_queue.pop_front, hf, he, midi_queue.contents]

/-- Witness for C2: the full capacity-1 queue rejects a push and counts the
drop; the freshly allocated queue pops `none`. -/
theorem midi_queue_full_push_empty_pop_witness :
    (c2_full_queue.add ⟨[128, 60, 0], 0⟩).1 = false ∧
      ((c2_full_queue.add ⟨[128, 60, 0], 0⟩).2).contents =
        c2_full_queue.contents ∧
      ((c2_full_queue.add ⟨[128, 60, 0], 0⟩).2).m_dropped =
        c2_full_queue.m_dropped + 1 ∧
      (midi_queue.allocate 1).pop_front.1 = none :=
  midi_queue_full_push_empty_pop c2_full_queue (midi_queue.allocate 1)
    ⟨[128, 60, 0], 0⟩ (by decide) (by decide)

/-- C10: `midi_message::operator[]` is total: for every integer index it
returns the stored byte when `0 <= i < count()` and 0 for every
out-of-range index; in particular reading any index of an empty message
yields 0. -/
theorem midi_message_index_total (m : midi_message) (i : Int) :
    (0 ≤ i → ∀ h : i.toNat < m.m_bytes.length,
        m.getByte i = m.m_bytes.get ⟨i.toNat, h⟩) ∧
      (¬ (0 ≤ i ∧ i < m.count) → m.getByte i = 0) ∧
      (m.m_bytes = [] → m.getByte i = 0) := by
  refine ⟨?_, ?_, ?_⟩
  · intro h0 hlt
    have hcond : 0 ≤ i ∧ i < m.count :=
      ⟨h0, by simp only [midi_message.count]; omega⟩
    rw [midi_message.getByte, if_pos hcond, List.getD_eq_getElem _ _ hlt]
    simp [List.get_eq_getElem]
  · intro hn
    rw [midi_message.getByte, if_neg hn]
  · intro hb
    rw [midi_message.getByte, if_neg]
    rintro ⟨h1, h2⟩
    rw [midi_message.count, hb] at h2
    simp at h2
    omega

/-- Witness for C10: an in-range read returns the stored byte, an
out-of-range read and a read from an empty message return 0. -/
theorem midi_message_index_total_witness :
    midi_message.getByte ⟨[7, 8], 0⟩ 1 = 8 ∧
      midi_message.getByte ⟨[7, 8], 0⟩ 5 = 0 ∧
      midi_message.getByte ⟨[], 0⟩ 2 = 0 := by
  refine ⟨?_, ?_, ?_⟩
  · exact ((midi_message_index_total ⟨[7, 8], 0⟩ 1).1 (by decide)
      (by decide)).trans rfl
  · exact (midi_message_index_total ⟨[7, 8], 0⟩ 5).2.1 (by decide)
  · exact (midi_message_index_total ⟨[], 0⟩ 2).2.2 rfl

/-! ## The API selector (rtmidi.cpp, rtmidi_types.hpp)

The `rtmidi_api` enumeration is from `rtmidi_types.hpp` (the entries under
`USE_RTMIDI_API_ALL` are not compiled).  `rtmidi_out::rtmidi_out` and
`rtmidi_out::openmidi_api` are embedded from `rtmidi.cpp`; the environment
bundles what the surrounding system decides: whether a backend object can
be constructed (`new (std::nothrow)` succeeding on a compiled-in backend)
and how many ports the probed backend reports.
-/

/-- Embeds `enum rtmidi_api` from `rtmidi_types.hpp`. -/
inductive rtmidi_api where
  | RTMIDI_API_UNSPECIFIED
  | RTMIDI_API_LINUX_ALSA
  | RTMIDI_API_UNIX_JACK
  | RTMIDI_API_MAXIMUM
deriving DecidableEq

/-- Modelled from the spec: `rtmidi_info::get_compiled_api` (body not in
the sources) lists the compiled-in backends in priority order, JACK first,
then ALSA. -/
def get_compiled_api : List rtmidi_api :=
  [rtmidi_api.RTMIDI_API_UNIX_JACK, rtmidi_api.RTMIDI_API_LINUX_ALSA]

/-- The system-dependent outcomes during probing: whether the backend
object for an API can be constructed, and how many ports
`info.get_api_info()->get_port_count()` reports after the probe. -/
structure rtmidi_env where
  constructs : rtmidi_api → Bool
  port_count : rtmidi_api → Nat

/-- Embeds `rtmidi_out::openmidi_api` (rtmidi.cpp): after `delete_api()`, the
requested backend object is constructed and installed with `set_api`.
Returns the new `m_midi_api` (tagged by its backend).  Note that in the
`RTMIDI_API_UNSPECIFIED` branch of the source the inner comparisons
`api == RTMIDI_API_UNIX_JACK` / `api == RTMIDI_API_LINUX_ALSA` can never
hold, so no backend object is created there. -/
def openmidi_api_out (env : rtmidi_env) (api : rtmidi_api) :
    Option rtmidi_api :=
  match api with
  | rtmidi_api.RTMIDI_API_UNSPECIFIED => none
  | rtmidi_api.RTMIDI_API_UNIX_JACK =>
    if env.constructs rtmidi_api.RTMIDI_API_UNIX_JACK then
      some rtmidi_api.RTMIDI_API_UNIX_JACK
    else none
  | rtmidi_api.RTMIDI_API_LINUX_ALSA =>
    if env.constructs rtmidi_api.RTMIDI_API_LINUX_ALSA then
      some rtmidi_api.RTMIDI_API_LINUX_ALSA
    else none
  | rtmidi_api.RTMIDI_API_MAXIMUM => none

/-- The fallback loop of `rtmidi_out::rtmidi_out`: iterate over the
compiled APIs, opening each; stop as soon as one reports a port count
above zero, logging it as the selected API.  The state is the current
`m_midi_api` and the static `selected_api`. -/
def probe_apis (env : rtmidi_env) (cur : Option rtmidi_api)
    (sel : rtmidi_api) : List rtmidi_api → Option rtmidi_api × rtmidi_api
  | [] => (cur, sel)
  | a :: rest =>
    let cur2 := openmidi_api_out env a
    if env.port_count a > 0 then (cur2, a)
    else probe_apis env cur2 sel rest

/-- The final null check of the constructor: throw
`rterror("no rtmidi API support found")` when no API object exists. -/
def probe_finish (st : Option rtmidi_api × rtmidi_api) :
    Except String (Option rtmidi_api × rtmidi_api) :=
  if st.1 = none then Except.error "no rtmidi API support found"
  else Except.ok st

/-- Embeds `rtmidi_out::rtmidi_out` (rtmidi.cpp): if an API is selected, open it
and return on success; otherwise fall back to probing the compiled APIs
in order, and throw only if no API object was constructed at the end.
The result carries the final `m_midi_api` and `selected_api`. -/
def rtmidi_out_ctor (env : rtmidi_env) (selected : rtmidi_api) :
    Except String (Option rtmidi_api × rtmidi_api) :=
  if selected ≠ rtmidi_api.RTMIDI_API_UNSPECIFIED then
    let a := openmidi_api_out env selected
    if a.isSome then Except.ok (a, selected)
    else probe_finish (probe_apis env a selected get_compiled_api)
  else probe_finish (probe_apis env none selected get_compiled_api)

/-- The probing environment in which every compiled backend constructs
but reports zero usable ports. -/
def c3_env : rtmidi_env := ⟨fun _ => true, fun _ => 0⟩

/-- Counterexample to C3: with no API configured and both probed backends
(JACK, then ALSA) reporting zero usable ports, the constructor raises no
`rterror` at all: it returns normally, silently bound to the last probed
backend (ALSA) even though that backend has no usable port, and the
selected API is never recorded. -/
theorem rtmidi_out_ctor_counterexample :
    (∀ a ∈ get_compiled_api, c3_env.port_count a = 0) ∧
      rtmidi_out_ctor c3_env rtmidi_api.RTMIDI_API_UNSPECIFIED =
        Except.ok (some rtmidi_api.RTMIDI_API_LINUX_ALSA,
          rtmidi_api.RTMIDI_API_UNSPECIFIED) := by
  constructor
  · intro a _
    rfl
  · rfl

/-- C3 (amended): with no API configured, the compiled-in backends are
probed in priority order (JACK, then ALSA) and the constructor binds to
and records the first API that constructs and reports at least one usable
port.  If no probed backend reports a usable port, the constructor throws
an `rterror` only when the probe ends with no backend object constructed
at all (the last-probed backend failed to construct); when the last
backend constructs, the object is returned silently bound to it. -/
theorem rtmidi_out_ctor_probe (env : rtmidi_env) :
    (∀ a, env.constructs a = true →
      get_compiled_api.find? (fun x => env.port_count x > 0) = some a →
        rtmidi_out_ctor env rtmidi_api.RTMIDI_API_UNSPECIFIED =
          Except.ok (some a, a)) ∧
      ((∀ a ∈ get_compiled_api, env.port_count a = 0) →
        rtmidi_out_ctor env rtmidi_api.RTMIDI_API_UNSPECIFIED =
          (if env.constructs rtmidi_api.RTMIDI_API_LINUX_ALSA then
            Except.ok (some rtmidi_api.RTMIDI_API_LINUX_ALSA,
              rtmidi_api.RTMIDI_API_UNSPECIFIED)
          else Except.error "no rtmidi API support found")) := by
  constructor
  · intro a hcon hfind
    by_cases hj : env.port_count rtmidi_api.RTMIDI_API_UNIX_JACK > 0
    · have ha : a = rtmidi_api.RTMIDI_API_UNIX_JACK := by
        simp [get_compiled_api, List.find?, hj] at hfind
        exact hfind.symm
      subst ha
      simp [rtmidi_out_ctor, probe_apis, probe_finish, get_compiled_api, hj,
        openmidi_api_out, hcon]
    · by_cases halsa : env.port_count rtmidi_api.RTMIDI_API_LINUX_ALSA > 0
      · have ha : a = rtmidi_api.RTMIDI_API_LINUX_ALSA := by
          simp [get_compiled_api, List.find?, hj, halsa] at hfind
          exact hfind.symm
        subst ha
        simp [rtmidi_out_ctor, probe_apis, probe_finish, get_compiled_api,
          hj, halsa, openmidi_api_out, hcon]
      · simp [get_compiled_api, List.find?, hj, halsa] at hfind
  · intro hzero
    have hj := hzero rtmidi_api.RTMIDI_API_UNIX_JACK (by simp [get_compiled_api])
    have ha := hzero rtmidi_api.RTMIDI_API_LINUX_ALSA (by simp [get_compiled_api])
    by_cases hc : env.constructs rtmidi_api.RTMIDI_API_LINUX_ALSA <;>
      simp [rtmidi_out_ctor, probe_apis, probe_finish, get_compiled_api, hj,
        ha, openmidi_api_out, hc]

/-- The probing environment in which JACK constructs and reports one
usable port. -/
def c3_good_env : rtmidi_env := ⟨fun _ => true, fun _ => 1⟩

/-- Witness for the amended C3: with a usable JACK port the constructor
binds to and records JACK; with zero ports everywhere but a constructible
ALSA backend it returns bound to ALSA without an error. -/
theorem rtmidi_out_ctor_probe_witness :
    rtmidi_out_ctor c3_good_env rtmidi_api.RTMIDI_API_UNSPECIFIED =
      Except.ok (some rtmidi_api.RTMIDI_API_UNIX_JACK,
        rtmidi_api.RTMIDI_API_UNIX_JACK) ∧
      rtmidi_out_ctor c3_env rtmidi_api.RTMIDI_API_UNSPECIFIED =
        (if c3_env.constructs rtmidi_api.RTMIDI_API_LINUX_ALSA then
          Except.ok (some rtmidi_api.RTMIDI_API_LINUX_ALSA,
            rtmidi_api.RTMIDI_API_UNSPECIFIED)
        else Except.error "no rtmidi API support found") :=
  ⟨(rtmidi_out_ctor_probe c3_good_env).1 rtmidi_api.RTMIDI_API_UNIX_JACK rfl
      (by rfl),
    (rtmidi_out_ctor_probe c3_env).2 (fun a _ => rfl)⟩

/-! ## ALSA port enumeration (midi_alsa_info.cpp)

`midi_alsa_info::get_all_port_info` walks the ALSA sequencer's clients and
ports.  The ALSA snapshot visible through the sequencer handle is a list
of clients, each with ports carrying a type word and a capability word.
The capability and type constants are the ALSA values quoted in the
source.  The queue argument passed to `midi_port_info::add` for input
ports is not modelled (that function's body is not in the sources and no
claim concerns it).
-/

def SND_SEQ_PORT_CAP_READ : Nat := 0x01
def SND_SEQ_PORT_CAP_WRITE : Nat := 0x02
def SND_SEQ_PORT_CAP_SUBS_READ : Nat := 0x20
def SND_SEQ_PORT_CAP_SUBS_WRITE : Nat := 0x40
def SND_SEQ_PORT_TYPE_MIDI_GENERIC : Nat := 0x02
def SND_SEQ_PORT_TYPE_SYNTH : Nat := 0x400
def SND_SEQ_CLIENT_SYSTEM : Int := 0
def SND_SEQ_PORT_SYSTEM_ANNOUNCE : Int := 1

/-- Embeds `SEQ66_MIDI_NORMAL_PORT` ("false = not virtual" in the source). -/
def SEQ66_MIDI_NORMAL_PORT : Bool := false
/-- Embeds `SEQ66_MIDI_VIRTUAL_PORT`. -/
def SEQ66_MIDI_VIRTUAL_PORT : Bool := true
/-- Embeds `SEQ66_MIDI_INPUT_PORT` ("input port" in the source). -/
def SEQ66_MIDI_INPUT_PORT : Bool := true
/-- Embeds `SEQ66_MIDI_OUTPUT_PORT`. -/
def SEQ66_MIDI_OUTPUT_PORT : Bool := false

/-- Embeds `midi_alsa_info::sm_input_caps`:
`SND_SEQ_PORT_CAP_READ | SND_SEQ_PORT_CAP_SUBS_READ`. -/
def sm_input_caps : Nat := SND_SEQ_PORT_CAP_READ ||| SND_SEQ_PORT_CAP_SUBS_READ

/-- Embeds `midi_alsa_info::sm_output_caps`:
`SND_SEQ_PORT_CAP_WRITE | SND_SEQ_PORT_CAP_SUBS_WRITE`. -/
def sm_output_caps : Nat :=
  SND_SEQ_PORT_CAP_WRITE ||| SND_SEQ_PORT_CAP_SUBS_WRITE

/-- One ALSA port as reported by the sequencer queries. -/
structure alsa_port where
  portnumber : Int
  portname : String
  porttype : Nat
  caps : Nat
deriving DecidableEq

/-- One ALSA client as reported by `snd_seq_query_next_client`. -/
structure alsa_client where
  client : Int
  clientname : String
  ports : List alsa_port
deriving DecidableEq

/-- One entry of a `midi_port_info` container, as filled in by the `add`
calls of `get_all_port_info`. -/
structure port_entry where
  client : Int
  clientname : String
  portnumber : Int
  portname : String
  isvirtual : Bool
  issystem : Bool
  isinput : Bool
deriving DecidableEq

/-- The synthetic ALSA MIDI system "announce" input port, client:port
0:1, added first on every enumeration. -/
def announce_entry : port_entry :=
  ⟨SND_SEQ_CLIENT_SYSTEM, "system", SND_SEQ_PORT_SYSTEM_ANNOUNCE, "announce",
    SEQ66_MIDI_NORMAL_PORT, true, SEQ66_MIDI_INPUT_PORT⟩

/-- Embeds `midi_alsa_info::check_port_type`: true when the port type has
neither the MIDI-generic nor the synth bit. -/
def check_port_type (p : alsa_port) : Bool :=
  (p.porttype &&& SND_SEQ_PORT_TYPE_MIDI_GENERIC == 0) &&
    (p.porttype &&& SND_SEQ_PORT_TYPE_SYNTH == 0)

/-- The state of `midi_alsa_info` relevant to enumeration: the sequencer
handle (`none` when not open, otherwise the visible client snapshot) and
the two port containers. -/
structure midi_alsa_info_state where
  m_alsa_seq : Option (List alsa_client)
  input_ports : List port_entry
  output_ports : List port_entry
deriving DecidableEq

/-- The accumulator of the enumeration loops: the input and output
containers being rebuilt, and the running count. -/
structure scan_acc where
  ins : List port_entry
  outs : List port_entry
  count : Nat
deriving DecidableEq

/-- The inner port loop body of `get_all_port_info`: skip ports whose
type is neither MIDI-generic nor synth, then add an input entry when all
input capability bits are present and an output entry when all output
capability bits are present, bumping the count for each.  (The `else` of
the output test only logs a message.) -/
def scan_port (client : Int) (clientname : String) (acc : scan_acc)
    (p : alsa_port) : scan_acc :=
  if check_port_type p then acc
  else
    let acc1 :=
      if p.caps &&& sm_input_caps == sm_input_caps then
        ⟨acc.ins ++
            [⟨client, clientname, p.portnumber, p.portname,
              SEQ66_MIDI_NORMAL_PORT, SEQ66_MIDI_NORMAL_PORT,
              SEQ66_MIDI_INPUT_PORT⟩],
          acc.outs, acc.count + 1⟩
      else acc
    if p.caps &&& sm_output_caps == sm_output_caps then
      ⟨acc1.ins,
        acc1.outs ++
          [⟨client, clientname, p.portnumber, p.portname,
            SEQ66_MIDI_NORMAL_PORT, SEQ66_MIDI_NORMAL_PORT,
            SEQ66_MIDI_OUTPUT_PORT⟩],
        acc1.count + 1⟩
    else acc1

/-- The client loop body of `get_all_port_info`: the system client
(client 0) is skipped, every other client's ports are scanned. -/
def scan_client (acc : scan_acc) (c : alsa_client) : scan_acc :=
  if c.client == SND_SEQ_CLIENT_SYSTEM then acc
  else c.ports.foldl (scan_port c.client c.clientname) acc

/-- Embeds `midi_alsa_info::get_all_port_info`: with no open handle the
containers are left alone and the zero count is flagged as -1; with an
open handle both containers are cleared, the announce port is added first
to the inputs, and the client/port loops rebuild the containers.  Returns
the updated state and the count (-1 when zero ports were found). -/
def get_all_port_info (s : midi_alsa_info_state) :
    midi_alsa_info_state × Int :=
  match s.m_alsa_seq with
  | none => (s, -1)
  | some clients =>
    let acc := clients.foldl scan_client ⟨[announce_entry], [], 1⟩
    ({ s with input_ports := acc.ins, output_ports := acc.outs },
      if acc.count == 0 then -1 else (acc.count : Int))

/-- Accumulator extension: the containers only grow by appending and the
count never decreases. -/
def acc_le (a b : scan_acc) : Prop :=
  (∃ l, b.ins = a.ins ++ l) ∧ (∃ l, b.outs = a.outs ++ l) ∧ a.count ≤ b.count

theorem acc_le_refl (a : scan_acc) : acc_le a a :=
  ⟨⟨[], by simp⟩, ⟨[], by simp⟩, le_refl _⟩

theorem acc_le_trans {a b c : scan_acc} (h1 : acc_le a b) (h2 : acc_le b c) :
    acc_le a c := by
  obtain ⟨⟨l1, hi1⟩, ⟨l2, ho1⟩, hc1⟩ := h1
  obtain ⟨⟨l3, hi2⟩, ⟨l4, ho2⟩, hc2⟩ := h2
  exact ⟨⟨l1 ++ l3, by rw [hi2, hi1, List.append_assoc]⟩,
    ⟨l2 ++ l4, by rw [ho2, ho1, List.append_assoc]⟩, le_trans hc1 hc2⟩

theorem scan_port_le (client : Int) (clientname : String) (acc : scan_acc)
    (p : alsa_port) : acc_le acc (scan_port client clientname acc p) := by
  unfold scan_port
  by_cases h1 : check_port_type p
  · simp only [h1, if_true]
    exact acc_le_refl acc
  · by_cases h2 : p.caps &&& sm_input_caps == sm_input_caps
    · by_cases h3 : p.caps &&& sm_output_caps == sm_output_caps
      · simp only [h1, h2, h3, Bool.false_eq_true, if_false, if_true]
        exact ⟨⟨_, rfl⟩, ⟨_, rfl⟩, Nat.le_add_right acc.count 2⟩
      · simp only [h1, h2, h3, Bool.false_eq_true, if_false, if_true]
        exact ⟨⟨_, rfl⟩, ⟨[], by simp⟩, Nat.le_add_right acc.count 1⟩
    · by_cases h3 : p.caps &&& sm_output_caps == sm_output_caps
      · simp only [h1, h2, h3, Bool.false_eq_true, if_false, if_true]
        exact ⟨⟨[], by simp⟩, ⟨_, rfl⟩, Nat.le_add_right acc.count 1⟩
      · simp only [h1, h2, h3, Bool.false_eq_true, if_false, if_true]
        exact acc_le_refl acc

theorem scan_client_le (acc : scan_acc) (c : alsa_client) :
    acc_le acc (scan_client acc c) := by
  unfold scan_client
  by_cases h : c.client == SND_SEQ_CLIENT_SYSTEM
  · simp only [h, if_true]
    exact acc_le_refl acc
  · simp only [h, Bool.false_eq_true, if_false]
    generalize acc = a
    induction c.ports generalizing a with
    | nil => exact acc_le_refl a
    | cons p rest ih =>
      exact acc_le_trans (scan_port_le c.client c.clientname a p)
        (by simpa [List.foldl_cons] using ih _)

theorem foldl_scan_client_le (clients : List alsa_client) (acc : scan_acc) :
    acc_le acc (clients.foldl scan_client acc) := by
  induction clients generalizing acc with
  | nil => exact acc_le_refl acc
  | cons c rest ih =>
    exact acc_le_trans (scan_client_le acc c)
      (by simpa [List.foldl_cons] using ih _)

/-- C4: port enumeration signals failure distinctly from every success
value: the result is -1 exactly when no port was found, which happens
exactly when the sequencer handle is not open; with an open handle the
system announce port is always added as the first input port before any
client ports, so the returned count is at least 1. -/
theorem alsa_enumeration_failure_flag (s : midi_alsa_info_state) :
    ((get_all_port_info s).2 = -1 ∨ 1 ≤ (get_all_port_info s).2) ∧
      (s.m_alsa_seq = none → (get_all_port_info s).2 = -1) ∧
      (∀ clients, s.m_alsa_seq = some clients →
        (get_all_port_info s).1.input_ports.head? = some announce_entry ∧
          1 ≤ (get_all_port_info s).2) := by
  have main : ∀ clients, s.m_alsa_seq = some clients →
      (get_all_port_info s).1.input_ports.head? = some announce_entry ∧
        1 ≤ (get_all_port_info s).2 := by
    intro clients hseq
    obtain ⟨⟨l, hins⟩, -, hcount⟩ :=
      foldl_scan_client_le clients ⟨[announce_entry], [], 1⟩
    have hne : (clients.foldl scan_client ⟨[announce_entry], [], 1⟩).count ≠ 0 := by
      have h1c : (1 : Nat) ≤
          (clients.foldl scan_client ⟨[announce_entry], [], 1⟩).count := hcount
      omega
    constructor
    · simp [get_all_port_info, hseq, hins]
    · simp only [get_all_port_info, hseq, beq_iff_eq, hne, if_false]
      exact_mod_cast hcount
  refine ⟨?_, ?_, main⟩
  · cases hseq : s.m_alsa_seq with
    | none => left; simp [get_all_port_info, hseq]
    | some clients => right; exact (main clients hseq).2
  · intro hseq
    simp [get_all_port_info, hseq]

/-- Witness for C4: a closed handle yields -1 and leaves the containers;
an open handle over one client with one duplex MIDI port yields the
announce port first and a positive count. -/
theorem alsa_enumeration_failure_flag_witness :
    (get_all_port_info ⟨none, [], []⟩).2 = -1 ∧
      ((get_all_port_info
          ⟨some [⟨20, "client", [⟨0, "port", 2, 0x63⟩]⟩], [], []⟩).1.input_ports.head? =
          some announce_entry ∧
        1 ≤ (get_all_port_info
          ⟨some [⟨20, "client", [⟨0, "port", 2, 0x63⟩]⟩], [], []⟩).2) :=
  ⟨(alsa_enumeration_failure_flag ⟨none, [], []⟩).2.1 rfl,
    (alsa_enumeration_failure_flag
        ⟨some [⟨20, "client", [⟨0, "port", 2, 0x63⟩]⟩], [], []⟩).2.2
      [⟨20, "client", [⟨0, "port", 2, 0x63⟩]⟩] rfl⟩

/-- C9: enumeration is idempotent: running `get_all_port_info` again on
the state produced by a first run (the system snapshot unchanged) yields
exactly the same input ports, output ports and return count, because the
containers are cleared and rebuilt from the snapshot on every call. -/
theorem alsa_enumeration_idempotent (s : midi_alsa_info_state) :
    get_all_port_info (get_all_port_info s).1 = get_all_port_info s := by
  cases hseq : s.m_alsa_seq with
  | none => simp [get_all_port_info, hseq]
  | some clients => simp [get_all_port_info, hseq]

/-! ## Bus connection state (midi_api.hpp / midi_api.cpp)

The `midi_api` base class tracks whether its port was "opened, activated,
and connected without issue" in `m_connected`; `is_port_open()` returns it
and the constructor initialises it to false.  The port-opening calls
themselves (`api_init_in`/`api_init_out` and their subclasses) are not in
the sources; opening is modelled from the spec.
-/

/-- A transport-level port descriptor: a client:port pair. -/
structure port_descriptor where
  client : Int
  port : Int
deriving DecidableEq

/-- The `midi_api` state relevant to connection tracking: `m_connected`
("set to true if the port was opened, activated, and connected without
issue"), `m_suspended`, and the last error message. -/
structure midi_api_state where
  m_connected : Bool
  m_suspended : Bool
  m_error_string : String
deriving DecidableEq

/-- The `midi_api` constructor: `m_connected(false), m_suspended(false),
m_error_string()`. -/
def midi_api_ctor : midi_api_state := ⟨false, false, ""⟩

/-- Embeds `midi_api::is_port_open()`: returns `m_connected`. -/
def is_port_open (s : midi_api_state) : Bool := s.m_connected

/-- Embeds `midi_api::set_port_open()`: sets `m_connected` to true. -/
def set_port_open (s : midi_api_state) : midi_api_state :=
  { s with m_connected := true }

/-- Outcome of opening a bus, per the spec contract
`open(descriptor) -> Result<Connected, ConnectionError>`. -/
inductive open_outcome where
  | Connected
  | ConnectionError (msg : String)
deriving DecidableEq

/-- Modelled from the spec: opening a bus (the `api_init_*` bodies are
not in the sources).  The port must exist in the system and be
permitted; on failure the error is reported to the caller in the result
("open failures (port gone, permission denied) are reported to the
caller, never silently swallowed") and the connection state is not
touched; on success `set_port_open` records the connection. -/
def open_bus (s : midi_api_state) (desc : port_descriptor)
    (sys : List port_descriptor) (permitted : port_descriptor → Bool) :
    open_outcome × midi_api_state :=
  if desc ∈ sys then
    if permitted desc then (open_outcome.Connected, set_port_open s)
    else
      (open_outcome.ConnectionError "permission denied",
        { s with m_error_string := "permission denied" })
  else
    (open_outcome.ConnectionError "port not found",
      { s with m_error_string := "port not found" })

/-- C5: opening a bus on a nonexistent or non-permitted port descriptor
reports a connection error to the caller (never silently swallowed) and
leaves the bus closed: starting from the constructed (closed) state,
`is_port_open()` stays false and the connection flag of the state is
exactly the one it started with — no partially-open state persists. -/
theorem open_bus_failure_reported (desc : port_descriptor)
    (sys : List port_descriptor) (permitted : port_descriptor → Bool)
    (hfail : desc ∉ sys ∨ permitted desc = false) :
    (∃ msg, (open_bus midi_api_ctor desc sys permitted).1 =
        open_outcome.ConnectionError msg) ∧
      is_port_open (open_bus midi_api_ctor desc sys permitted).2 = false ∧
      (open_bus midi_api_ctor desc sys permitted).2.m_connected =
        midi_api_ctor.m_connected := by
  rcases hfail with hmem | hperm
  · refine ⟨⟨"port not found", ?_⟩, ?_, ?_⟩ <;>
      simp [open_bus, hmem, is_port_open, midi_api_ctor]
  · by_cases hmem : desc ∈ sys
    · refine ⟨⟨"permission denied", ?_⟩, ?_, ?_⟩ <;>
        simp [open_bus, hmem, hperm, is_port_open, midi_api_ctor]
    · refine ⟨⟨"port not found", ?_⟩, ?_, ?_⟩ <;>
        simp [open_bus, hmem, is_port_open, midi_api_ctor]

/-- Witness for C5: opening port 64:0 when only 20:0 exists fails with an
error and the bus stays closed. -/
theorem open_bus_failure_reported_witness :
    (∃ msg, (open_bus midi_api_ctor ⟨64, 0⟩ [⟨20, 0⟩] (fun _ => true)).1 =
        open_outcome.ConnectionError msg) ∧
      is_port_open (open_bus midi_api_ctor ⟨64, 0⟩ [⟨20, 0⟩]
        (fun _ => true)).2 = false ∧
      (open_bus midi_api_ctor ⟨64, 0⟩ [⟨20, 0⟩]
          (fun _ => true)).2.m_connected = midi_api_ctor.m_connected :=
  open_bus_failure_reported ⟨64, 0⟩ [⟨20, 0⟩] (fun _ => true)
    (Or.inl (by decide))

/-! ## Virtual-port initialisation (mastermidibus.cpp)

`mastermidibus::api_init` in manual-ports mode: the system enumeration in
`m_midi_master` is cleared ("ignore system"), then `manual_port_count()`
virtual output busses and one virtual input bus are created and added.
The midibus construction and `busarray::add` (which inits/opened the
virtual port) are not in the sources; per the spec, creating a virtual
port always succeeds ("bus objects for virtual ports open successfully,
`is_open()==true`").
-/

/-- A midibus as created by `api_init`: its index, virtual/input flags
and whether it is open. -/
structure midibus_v where
  bus_index : Nat
  isvirtual : Bool
  isinput : Bool
  is_open : Bool
deriving DecidableEq

/-- Modelled from the spec: creating a virtual bus ("for virtual ports,
creates a new client-side port with no external connection") always
succeeds, so the bus is open. -/
def make_virtual_bus (i : Nat) (isinput : Bool) : midibus_v :=
  ⟨i, SEQ66_MIDI_VIRTUAL_PORT, isinput, true⟩

/-- The mastermidibus state touched by `api_init`: the master registry's
port lists and the input/output bus arrays. -/
structure mastermidibus_state where
  master_inputs : List midibus_v
  master_outputs : List midibus_v
  m_outbus_array : List midibus_v
  m_inbus_array : List midibus_v
deriving DecidableEq

/-- The manual-ports branch of `mastermidibus::api_init`:
`m_midi_master.clear()` discards the system enumeration, then
`manual_port_count()` virtual output busses are created and added (to the
out-bus array and the master registry), then one virtual input bus. -/
def api_init_manual (num_buses : Nat) (s : mastermidibus_state) :
    mastermidibus_state :=
  let cleared : mastermidibus_state := { s with master_inputs := [], master_outputs := [] }
  let outs := (List.range num_buses).map (fun i => make_virtual_bus i SEQ66_MIDI_OUTPUT_PORT)
  let inb := make_virtual_bus 0 SEQ66_MIDI_INPUT_PORT
  { cleared with
    master_outputs := outs
    master_inputs := [inb]
    m_outbus_array := outs
    m_inbus_array := [inb] }

/-- C6: with manual (virtual) ports requested, `api_init` ignores the
system enumeration (the result is the same whatever ports had been
enumerated, including none at all), creates exactly `manual_port_count()`
virtual output busses and exactly one virtual input bus, and every one of
those busses is open (`is_open()` true). -/
theorem api_init_manual_virtual_ports (num_buses : Nat)
    (s : mastermidibus_state) :
    api_init_manual num_buses s = api_init_manual num_buses ⟨[], [], [], []⟩ ∧
      (api_init_manual num_buses s).m_outbus_array.length = num_buses ∧
      (api_init_manual num_buses s).m_inbus_array.length = 1 ∧
      (∀ b ∈ (api_init_manual num_buses s).m_outbus_array ++
          (api_init_manual num_buses s).m_inbus_array,
        b.isvirtual = true ∧ b.is_open = true) := by
  refine ⟨rfl, by simp [api_init_manual], by simp [api_init_manual], ?_⟩
  intro b hb
  simp only [api_init_manual, List.mem_append, List.mem_map,
    List.mem_range, List.mem_singleton] at hb
  rcases hb with ⟨i, -, hi⟩ | hi
  · simp [← hi, make_virtual_bus, SEQ66_MIDI_VIRTUAL_PORT]
  · simp [hi, make_virtual_bus, SEQ66_MIDI_VIRTUAL_PORT]

/-- Witness for C6: three virtual output busses requested with zero
system ports available; all created busses are virtual and open. -/
theorem api_init_manual_virtual_ports_witness :
    (api_init_manual 3 ⟨[], [], [], []⟩).m_outbus_array.length = 3 ∧
      (api_init_manual 3 ⟨[], [], [], []⟩).m_inbus_array.length = 1 ∧
      (make_virtual_bus 2 SEQ66_MIDI_OUTPUT_PORT).isvirtual = true ∧
      (make_virtual_bus 2 SEQ66_MIDI_OUTPUT_PORT).is_open = true :=
  ⟨(api_init_manual_virtual_ports 3 ⟨[], [], [], []⟩).2.1,
    (api_init_manual_virtual_ports 3 ⟨[], [], [], []⟩).2.2.1,
    ((api_init_manual_virtual_ports 3 ⟨[], [], [], []⟩).2.2.2
        (make_virtual_bus 2 SEQ66_MIDI_OUTPUT_PORT) (by decide)).1,
    ((api_init_manual_virtual_ports 3 ⟨[], [], [], []⟩).2.2.2
        (make_virtual_bus 2 SEQ66_MIDI_OUTPUT_PORT) (by decide)).2⟩

/-! ## JACK frame/pulse conversion (midi_jack_data.hpp)

`midi_jack_data` caches a frame-per-pulse conversion factor in the static
`sm_jack_frame_factor`, alongside the frame rate, ticks-per-beat and BPM
(static members declared in the source header).  The bodies of
`recalculate_frame_factor` and `jack_frame_offset` are not in the
sources; both are modelled from the spec ("convert native frame/sample
position to MIDI pulses using a cached conversion factor derived from
(sample rate, BPM, PPQN); the factor is recomputed whenever BPM or sample
rate changes").  The `double` values are modelled as exact rationals;
native frame positions are whole numbers (`jack_nframes_t`).
-/

/-- The subset of `jack_position_t` used by the factor recalculation. -/
structure jack_position_s where
  frame_rate : Nat
  beats_per_minute : Rat
deriving DecidableEq

/-- The static transport data of `midi_jack_data`. -/
structure midi_jack_data_s where
  sm_jack_frame_rate : Nat
  sm_jack_ticks_per_beat : Rat
  sm_jack_beats_per_minute : Rat
  sm_jack_frame_factor : Rat
deriving DecidableEq

/-- Modelled from the spec: the conversion factor derived from
(sample rate, BPM, PPQN) — frames per MIDI pulse.  A pulse lasts
`60 / (bpm * ppqn)` seconds, hence `rate * 60 / (bpm * ppqn)` frames. -/
def frame_factor_of (rate : Nat) (bpm ppqn : Rat) : Rat :=
  (rate : Rat) * 60 / (bpm * ppqn)

/-- Modelled from the spec: `midi_jack_data::recalculate_frame_factor`
(body not in the sources) — an explicit recalculation step, run on every
position update: when the position's BPM or frame rate differs from the
cached ones, the new values are stored and the cached factor is
recomputed from them. -/
def recalculate_frame_factor (s : midi_jack_data_s) (pos : jack_position_s) :
    midi_jack_data_s :=
  if pos.beats_per_minute ≠ s.sm_jack_beats_per_minute ∨
      pos.frame_rate ≠ s.sm_jack_frame_rate then
    { sm_jack_frame_rate := pos.frame_rate
      sm_jack_ticks_per_beat := s.sm_jack_ticks_per_beat
      sm_jack_beats_per_minute := pos.beats_per_minute
      sm_jack_frame_factor :=
        frame_factor_of pos.frame_rate pos.beats_per_minute
          s.sm_jack_ticks_per_beat }
  else s

/-- The cached factor agrees with the cached (rate, BPM, PPQN) values. -/
def factor_consistent (s : midi_jack_data_s) : Prop :=
  s.sm_jack_frame_factor =
    frame_factor_of s.sm_jack_frame_rate s.sm_jack_beats_per_minute
      s.sm_jack_ticks_per_beat

/-- C7: the cached conversion factor is recomputed whenever BPM or the
frame rate changes: starting from any consistent cache, after an update
with any position the stored factor equals the factor derived from the
new (sample rate, BPM, PPQN) values, and the cache remains consistent. -/
theorem jack_frame_factor_recomputed (s : midi_jack_data_s)
    (pos : jack_position_s) (h : factor_consistent s) :
    (recalculate_frame_factor s pos).sm_jack_frame_factor =
      frame_factor_of pos.frame_rate pos.beats_per_minute
        s.sm_jack_ticks_per_beat ∧
      factor_consistent (recalculate_frame_factor s pos) := by
  by_cases hc : pos.beats_per_minute ≠ s.sm_jack_beats_per_minute ∨
      pos.frame_rate ≠ s.sm_jack_frame_rate
  · unfold recalculate_frame_factor
    rw [if_pos hc]
    exact ⟨rfl, rfl⟩
  · push_neg at hc
    obtain ⟨h1, h2⟩ := hc
    unfold recalculate_frame_factor
    rw [if_neg (by push_neg; exact ⟨h1, h2⟩)]
    refine ⟨?_, h⟩
    rw [h, h1, h2]

/-- Witness for C7: a consistent cache at (48000 Hz, 120 BPM, 960 PPQN)
with factor 25 frames/pulse, updated to (44100 Hz, 130 BPM). -/
theorem jack_frame_factor_recomputed_witness :
    (recalculate_frame_factor ⟨48000, 960, 120, 25⟩
        ⟨44100, 130⟩).sm_jack_frame_factor =
      frame_factor_of 44100 130 960 ∧
      factor_consistent (recalculate_frame_factor ⟨48000, 960, 120, 25⟩
        ⟨44100, 130⟩) :=
  jack_frame_factor_recomputed ⟨48000, 960, 120, 25⟩ ⟨44100, 130⟩
    (by norm_num [factor_consistent, frame_factor_of])

/-- Modelled from the spec: pulse position → native frame position
(`jack_nframes_t` is integral, so the fractional frame is truncated). -/
def frames_of_pulse (factor : Rat) (p : Int) : Int :=
  Int.floor ((p : Rat) * factor)

/-- Modelled from the spec: native frame position → MIDI pulses, rounding
to the nearest pulse. -/
def pulse_of_frames (factor : Rat) (f : Int) : Int :=
  round ((f : Rat) / factor)

/-- Counterexample to C8 as stated: the claim quantifies over every fixed
BPM, but when the BPM is so large that a pulse is shorter than one frame
(conversion factor below 1), the truncation to whole frames loses more
than one pulse.  At 48000 Hz, PPQN 960 and BPM 6000000 the factor is
1/2000 frames per pulse: pulse 3 maps to frame 0 and back to pulse 0,
an error of 3 > 1. -/
theorem pulse_roundtrip_counterexample :
    (960 : Nat) ∈ [96, 192, 960] ∧ (0 : Rat) < 6000000 ∧
      ¬ (|pulse_of_frames (frame_factor_of 48000 6000000 960)
          (frames_of_pulse (frame_factor_of 48000 6000000 960) 3) - 3| ≤ 1) := by
  refine ⟨by decide, by norm_num, ?_⟩
  have hfac : frame_factor_of 48000 6000000 960 = 1 / 2000 := by
    norm_num [frame_factor_of]
  rw [hfac]
  have h1 : frames_of_pulse (1 / 2000) 3 = 0 := by
    rw [frames_of_pulse]
    norm_num
  rw [h1]
  have h2 : pulse_of_frames (1 / 2000) 0 = 0 := by
    rw [pulse_of_frames]
    norm_num
  rw [h2]
  norm_num

/-- C8 (amended): for every PPQN in {96, 192, 960} and every positive BPM
that keeps the conversion factor at or above one frame per pulse
(`bpm * ppqn ≤ rate * 60`, true for all realistic tempi at audio sample
rates), converting any pulse position to native frames and back yields
the original pulse within a rounding tolerance of 1 unit. -/
theorem pulse_roundtrip (ppqn rate : Nat) (bpm : Rat) (p : Int)
    (hppqn : ppqn ∈ [96, 192, 960]) (hbpm : 0 < bpm)
    (hfac : bpm * (ppqn : Rat) ≤ (rate : Rat) * 60) :
    |pulse_of_frames (frame_factor_of rate bpm ppqn)
        (frames_of_pulse (frame_factor_of rate bpm ppqn) p) - p| ≤ 1 := by
  have hppqn0 : (0 : Rat) < (ppqn : Rat) := by
    have h0 : 0 < ppqn := by
      simp only [List.mem_cons, List.not_mem_nil, or_false] at hppqn
      rcases hppqn with h | h | h <;> omega
    exact_mod_cast h0
  have hden : (0 : Rat) < bpm * (ppqn : Rat) := mul_pos hbpm hppqn0
  have hF1 : 1 ≤ frame_factor_of rate bpm ppqn := by
    rw [frame_factor_of, one_le_div hden]
    exact hfac
  have hF0 : (0 : Rat) < frame_factor_of rate bpm ppqn :=
    lt_of_lt_of_le zero_lt_one hF1
  have hFne : frame_factor_of rate bpm ppqn ≠ 0 := ne_of_gt hF0
  have hfloor_le :
      ((Int.floor ((p : Rat) * frame_factor_of rate bpm ppqn) : Int) : Rat) ≤
        (p : Rat) * frame_factor_of rate bpm ppqn := Int.floor_le _
  have hfloor_gt :
      (p : Rat) * frame_factor_of rate bpm ppqn - 1 <
        ((Int.floor ((p : Rat) * frame_factor_of rate bpm ppqn) : Int) : Rat) :=
    Int.sub_one_lt_floor _
  have hq_le :
      ((Int.floor ((p : Rat) * frame_factor_of rate bpm ppqn) : Int) : Rat) /
          frame_factor_of rate bpm ppqn ≤ (p : Rat) := by
    rw [div_le_iff₀ hF0]
    rw [mul_comm] at hfloor_le
    rw [mul_comm]
    exact hfloor_le
  have hq_gt : (p : Rat) - 1 / frame_factor_of rate bpm ppqn <
      ((Int.floor ((p : Rat) * frame_factor_of rate bpm ppqn) : Int) : Rat) /
        frame_factor_of rate bpm ppqn := by
    have h1 := (div_lt_div_iff_of_pos_right hF0).mpr hfloor_gt
    rw [sub_div, mul_div_cancel_right₀ _ hFne] at h1
    exact h1
  have h1F : 1 / frame_factor_of rate bpm ppqn ≤ 1 := by
    rw [div_le_one hF0]
    exact hF1
  have h1Fpos : (0 : Rat) < 1 / frame_factor_of rate bpm ppqn :=
    div_pos zero_lt_one hF0
  have habs :
      |((Int.floor ((p : Rat) * frame_factor_of rate bpm ppqn) : Int) : Rat) /
          frame_factor_of rate bpm ppqn - (p : Rat)| ≤ 1 := by
    rw [abs_le]
    constructor <;> linarith
  have hr :
      |((Int.floor ((p : Rat) * frame_factor_of rate bpm ppqn) : Int) : Rat) /
            frame_factor_of rate bpm ppqn -
          (round (((Int.floor ((p : Rat) * frame_factor_of rate bpm ppqn) :
            Int) : Rat) / frame_factor_of rate bpm ppqn) : Rat)| ≤ 1 / 2 :=
    abs_sub_round _
  have hfinal :
      |(round (((Int.floor ((p : Rat) * frame_factor_of rate bpm ppqn) :
            Int) : Rat) / frame_factor_of rate bpm ppqn) : Rat) - (p : Rat)| ≤
        3 / 2 := by
    have htri := abs_sub_le
      ((round (((Int.floor ((p : Rat) * frame_factor_of rate bpm ppqn) :
        Int) : Rat) / frame_factor_of rate bpm ppqn) : Int) : Rat)
      (((Int.floor ((p : Rat) * frame_factor_of rate bpm ppqn) : Int) : Rat) /
        frame_factor_of rate bpm ppqn)
      ((p : Rat))
    rw [abs_sub_comm] at hr
    linarith
  have hint :
      |pulse_of_frames (frame_factor_of rate bpm ppqn)
          (frames_of_pulse (frame_factor_of rate bpm ppqn) p) - p| < 2 := by
    have hcast :
        (|pulse_of_frames (frame_factor_of rate bpm ppqn)
            (frames_of_pulse (frame_factor_of rate bpm ppqn) p) - p| : Rat) <
          2 := by
      calc |(round (((Int.floor ((p : Rat) * frame_factor_of rate bpm ppqn) :
              Int) : Rat) / frame_factor_of rate bpm ppqn) : Rat) - (p : Rat)| ≤
            3 / 2 := hfinal
        _ < 2 := by norm_num
    exact_mod_cast hcast
  omega

/-- Witness for the amended C8: 48000 Hz, 120 BPM, PPQN 960, pulse 7777
(factor 25 frames per pulse). -/
theorem pulse_roundtrip_witness :
    |pulse_of_frames (frame_factor_of 48000 120 960)
        (frames_of_pulse (frame_factor_of 48000 120 960) 7777) - 7777| ≤ 1 :=
  pulse_roundtrip 960 48000 120 7777 (by decide) (by norm_num) (by norm_num)

end seq66
